import Mathlib

/-!
Verification development for the Master_Slave_Firmware CANopen master.

The definitions below are shallow embeddings of the C sources:
* fw_master_update.c (raspberry_master and CAN_ESP32 variants): CRC-16,
  payload streaming, and the upload orchestration entry points;
* sdo_client.c (raspberry_master): the raw-SocketCAN SDO client;
* CANopen_LSS_Master.c (CAN_ESP32): the LSS commissioning state machine,
  its node-ID allocator, the configured-node registry, and the fastscan
  progress-watchdog loop.

Machine integers are modelled as Nat with explicit truncation (% 65536 for
uint16 overflow) exactly where the C code can overflow.  Fallible I/O is
modelled by environments (oracles) supplying the results of file reads,
CAN responses and SDO transfers, and the functions additionally return the
trace of observable protocol events so that claims about "which frames are
emitted" can be stated.
-/

namespace MasterSlaveFw

/-! ### CRC-16/CCITT-FALSE

Embedding of fw_master_crc16 (identical loops in
firmware_updater/complete_demo/raspberry_master/fw_master_update.c lines
87-102 and CAN_ESP32/.../fw_master_update.c lines 69-83) and of the
fread-loop body of fw_master_crc_from_file (CAN_ESP32 lines 42-67). -/

/-- One iteration of the inner bit loop:
if (crc & 0x8000) crc = (crc << 1) ^ 0x1021 else crc <<= 1,
with the uint16 truncation written as % 65536. -/
def crcBitStep (crc : Nat) : Nat :=
  if crc &&& 0x8000 ≠ 0 then ((crc <<< 1) ^^^ 0x1021) % 65536
  else (crc <<< 1) % 65536

/-- Processing of one input byte: crc ^= byte << 8 followed by eight bit
steps.  The byte is a uint8 value, hence the % 256. -/
def crcByteStep (crc b : Nat) : Nat :=
  crcBitStep^[8] (crc ^^^ ((b % 256) <<< 8))

/-- The byte loop of fw_master_crc16 started from an arbitrary running
CRC state (the state-preserving update function of the spec). -/
def crc16_update (crc : Nat) (data : List Nat) : Nat :=
  data.foldl crcByteStep crc

/-- uint16_t fw_master_crc16(const uint8_t* data, size_t len): CRC over a
whole byte sequence, initial value 0xFFFF. -/
def fw_master_crc16 (data : List Nat) : Nat :=
  crc16_update 0xFFFF data

/-- The while (fread(..)) loop of fw_master_crc_from_file: the file is
consumed through a 1024-byte buffer, the CRC state carried across chunks.
Fuel-indexed so that the recursion is structural; the wrapper passes the
byte count, which is always enough fuel. -/
def crcFileLoopF : Nat → Nat → List Nat → Nat
  | _, crc, [] => crc
  | 0, crc, _ => crc
  | fuel + 1, crc, l => crcFileLoopF fuel (crc16_update crc (l.take 1024)) (l.drop 1024)

/-- fw_master_crc_from_file with the file contents already read: returns
none when the file is empty (total == 0 makes the C function fail), else
the CRC computed by the 1024-byte-buffer loop. -/
def fw_master_crc_from_file (l : List Nat) : Option Nat :=
  if l = [] then none else some (crcFileLoopF l.length 0xFFFF l)

/-! ### SDO client (sdo_client.c, raspberry_master)

sdo_download is embedded as a pure function of the object address, the
payload, and a response oracle resp : Nat → Option (List Nat) giving the
k-th 8-byte frame received on COB-ID 0x580+nodeId (none = timeout of
wait_for_response).  The result is (success, frames transmitted on
0x600+nodeId, final value of g_last_abort_code). -/

def SDO_ABORT_NONE : Nat := 0x00000000
def SDO_ABORT_TOGGLE_ERROR : Nat := 0x05030000
def SDO_ABORT_TIMEOUT : Nat := 0x05040000

/-- Zero padding of a frame body to n bytes (the C code memsets the frame
and copies the payload over it). -/
def padZeros (n : Nat) (l : List Nat) : List Nat :=
  l ++ List.replicate (n - l.length) 0

/-- parse_abort_code: bytes 4..7 of the response, little-endian. -/
def parse_abort_code (r : List Nat) : Nat :=
  r.getD 4 0 ||| (r.getD 5 0 <<< 8) ||| (r.getD 6 0 <<< 16) ||| (r.getD 7 0 <<< 24)

/-- Expedited download request frame (len ≤ 4): command 0x23 | (n << 2),
index little-endian, sub-index, payload right-padded to 4 bytes. -/
def expeditedFrame (index sub : Nat) (data : List Nat) : List Nat :=
  (0x23 ||| ((4 - data.length) <<< 2)) ::
    (index &&& 0xFF) :: ((index >>> 8) &&& 0xFF) :: sub :: padZeros 4 data

/-- Segmented download initiate frame: command 0x21, index little-endian,
sub-index, 32-bit payload size little-endian in bytes 4..7. -/
def segInitiateFrame (index sub len : Nat) : List Nat :=
  [0x21, index &&& 0xFF, (index >>> 8) &&& 0xFF, sub,
   len &&& 0xFF, (len >>> 8) &&& 0xFF, (len >>> 16) &&& 0xFF, (len >>> 24) &&& 0xFF]

/-- One segment frame as built inside the while (offset < len) loop:
segLen = min(remaining, 7), n = 7 - segLen,
frame[0] = (toggle << 4) | (n << 1) | last, bytes 1..7 the segment data
zero-padded. -/
def segmentFrame (toggle : Nat) (rest : List Nat) : List Nat :=
  ((toggle <<< 4) ||| ((7 - min rest.length 7) <<< 1) |||
      (if rest.length ≤ 7 then 1 else 0)) ::
    padZeros 7 (rest.take 7)

/-- The segment loop of sdo_download.  toggle is the uint8 toggle bit
(0/1, flipped with ^= 1), k indexes the next response consumed from the
oracle, rest is the unsent payload.  Fuel-indexed (the wrapper passes
rest.length, which is always enough). -/
def sdoSegLoopF (resp : Nat → Option (List Nat)) :
    Nat → Nat → Nat → List Nat → Bool × List (List Nat) × Nat
  | fuel, toggle, k, rest =>
    if rest = [] then (true, [], SDO_ABORT_NONE)
    else
      match fuel with
      | 0 => (false, [], SDO_ABORT_NONE)
      | fuel + 1 =>
        let frame := segmentFrame toggle rest
        match resp k with
        | none => (false, [frame], SDO_ABORT_TIMEOUT)
        | some r =>
          if r.headD 0 &&& 0xE0 = 0x80 then (false, [frame], parse_abort_code r)
          else if (r.headD 0 >>> 4) &&& 1 ≠ toggle then
            (false, [frame], SDO_ABORT_TOGGLE_ERROR)
          else
            let res := sdoSegLoopF resp fuel (toggle ^^^ 1) (k + 1) (rest.drop 7)
            (res.1, frame :: res.2.1, res.2.2)

/-- bool sdo_download(uint8_t nodeId, uint16_t index, uint8_t subIndex,
const uint8_t* data, size_t len).  The node id only selects the COB-ID
pair (0x600+nodeId / 0x580+nodeId) and is abstracted into the response
oracle.  Returns (result, frames transmitted, g_last_abort_code). -/
def sdo_download (index sub : Nat) (data : List Nat)
    (resp : Nat → Option (List Nat)) : Bool × List (List Nat) × Nat :=
  if data.length ≤ 4 then
    let frame := expeditedFrame index sub data
    match resp 0 with
    | none => (false, [frame], SDO_ABORT_TIMEOUT)
    | some r =>
      if r.headD 0 &&& 0xE0 = 0x80 then (false, [frame], parse_abort_code r)
      else if r.headD 0 &&& 0xE0 ≠ 0x60 then (false, [frame], SDO_ABORT_NONE)
      else (true, [frame], SDO_ABORT_NONE)
  else
    let frame := segInitiateFrame index sub data.length
    match resp 0 with
    | none => (false, [frame], SDO_ABORT_TIMEOUT)
    | some r =>
      if r.headD 0 &&& 0xE0 = 0x80 then (false, [frame], parse_abort_code r)
      else if r.headD 0 &&& 0xE0 ≠ 0x60 then (false, [frame], SDO_ABORT_NONE)
      else
        let res := sdoSegLoopF resp data.length 0 1 data
        (res.1, frame :: res.2.1, res.2.2)

/-- Modelled from the spec: the segment frames of a segmented download are
ceil(len/7) frames, toggles alternating from the given start value, each
carrying min(7, remaining) data bytes with command byte
(toggle << 4) | ((7 - segLen) << 1) | last_flag.  Fuel-indexed companion.  -/
def specSegFramesF : Nat → Nat → List Nat → List (List Nat)
  | _, _, [] => []
  | 0, _, _ => []
  | fuel + 1, toggle, data =>
    (((toggle <<< 4) ||| ((7 - min 7 data.length) <<< 1) |||
        (if data.length ≤ 7 then 1 else 0)) :: padZeros 7 (data.take 7)) ::
      specSegFramesF fuel (toggle ^^^ 1) (data.drop 7)

/-- Modelled from the spec: the expected segment-frame sequence. -/
def specSegFrames (toggle : Nat) (data : List Nat) : List (List Nat) :=
  specSegFramesF data.length toggle data

/-- A well-behaved SDO server: acknowledges the initiate with 0x60 and
every segment with 0x20 carrying the echoed toggle bit of that segment. -/
def goodResp : Nat → Option (List Nat) := fun k =>
  if k = 0 then some [0x60, 0, 0, 0, 0, 0, 0, 0]
  else some [0x20 ||| (((k - 1) % 2) <<< 4), 0, 0, 0, 0, 0, 0, 0]

/-- A segment response that is not an abort and echoes toggle bit t. -/
def goodSegResp (o : Option (List Nat)) (t : Nat) : Prop :=
  ∃ r, o = some r ∧ r.headD 0 &&& 0xE0 ≠ 0x80 ∧ (r.headD 0 >>> 4) &&& 1 = t

/-- A segment response that is not an abort and echoes a toggle bit
different from t. -/
def badSegResp (o : Option (List Nat)) (t : Nat) : Prop :=
  ∃ r, o = some r ∧ r.headD 0 &&& 0xE0 ≠ 0x80 ∧ (r.headD 0 >>> 4) &&& 1 ≠ t

/-- An accepted download-initiate response (upper three bits 0x60). -/
def okInitResp (o : Option (List Nat)) : Prop :=
  ∃ r, o = some r ∧ r.headD 0 &&& 0xE0 = 0x60

/-! ### Firmware chunk streaming

Embedding of the chunk loops of fw_master_stream_payload (raspberry_master
fw_master_update.c lines 107-134) and fw_master_stream_file (CAN_ESP32
fw_master_update.c lines 129-157).  The per-chunk transport success is an
oracle chunkOk : offset → Bool; the result carries the (offset, length)
pairs passed to fw_master_send_chunk.  Fuel-indexed: the wrapper passes
the byte count as fuel, which is always enough when the chunk size is
positive.  The C loop with chunk size 0 never advances offset and does
not terminate; that case is mapped to the (false, []) fuel branch. -/

def streamChunkLoopF (maxChunk : Nat) (chunkOk : Nat → Bool) :
    Nat → Nat → Nat → Bool × List (Nat × Nat)
  | 0, _, size => if size = 0 then (true, []) else (false, [])
  | fuel + 1, offset, size =>
    if size = 0 then (true, [])
    else if min size maxChunk = 0 then (false, [])
    else if chunkOk offset then
      let res := streamChunkLoopF maxChunk chunkOk fuel
        (offset + min size maxChunk) (size - min size maxChunk)
      (res.1, (offset, min size maxChunk) :: res.2)
    else (false, [(offset, min size maxChunk)])

/-- bool fw_master_stream_payload(plan, payload): chunkLen =
(remaining < maxChunkBytes) ? remaining : maxChunkBytes, abort on the
first failed fw_master_send_chunk. -/
def fw_master_stream_payload (maxChunkBytes size : Nat) (chunkOk : Nat → Bool) :
    Bool × List (Nat × Nat) :=
  streamChunkLoopF maxChunkBytes chunkOk size 0 size

/-- The chunk-size sanitization of fw_master_stream_file:
if (chunkSize == 0 || chunkSize > 1024) chunkSize = 1024. -/
def esp_chunk_size (maxChunkBytes : Nat) : Nat :=
  if maxChunkBytes = 0 ∨ maxChunkBytes > 1024 then 1024 else maxChunkBytes

/-- static bool fw_master_stream_file(plan, fileSize): fread-driven loop,
chunk sizes min(sanitized chunk size, remaining). -/
def fw_master_stream_file (maxChunkBytes size : Nat) (chunkOk : Nat → Bool) :
    Bool × List (Nat × Nat) :=
  streamChunkLoopF (esp_chunk_size maxChunkBytes) chunkOk size 0 size

/-- Modelled from the spec: read the firmware sequentially, each chunk the
minimum of max_chunk_bytes and remaining bytes, at increasing offsets. -/
def specChunksF (maxChunk : Nat) : Nat → Nat → Nat → List (Nat × Nat)
  | 0, _, _ => []
  | fuel + 1, offset, size =>
    if size = 0 then []
    else if min maxChunk size = 0 then []
    else (offset, min maxChunk size) ::
      specChunksF maxChunk fuel (offset + min maxChunk size) (size - min maxChunk size)

/-- Modelled from the spec: the full expected chunk sequence. -/
def specChunks (maxChunk offset size : Nat) : List (Nat × Nat) :=
  specChunksF maxChunk size offset size

/-- The 13 chunks expected for a 3172-byte image at max_chunk = 256. -/
def chunks3172 : List (Nat × Nat) :=
  [(0, 256), (256, 256), (512, 256), (768, 256), (1024, 256), (1280, 256),
   (1536, 256), (1792, 256), (2048, 256), (2304, 256), (2560, 256),
   (2816, 256), (3072, 100)]

/-! ### Firmware upload orchestrator

Embedding of fw_master_run_upload_session / fw_master_run_upload_if_needed
in both variants: CAN_ESP32 fw_master_update.c (file-info + crc-from-file
+ CRC and version pre-check) and raspberry_master fw_master_update.c
(load-payload + in-memory CRC + CRC-only pre-check).  The filesystem and
the SDO transport are an environment; each function returns its bool
result and the trace of protocol events it performed. -/

inductive FwEvent
  | queryCrc
  | queryVersion
  | sendMetadata (size crc imgType bank version : Nat)
  | sendStart
  | sendChunk (offset len : Nat)
  | sendFinalize (crc : Nat)
deriving DecidableEq

/-- Whether an event is one of the four 0x1F57/0x1F51/0x1F50/0x1F5A
object-dictionary writes (as opposed to the 0x1F5B/0x1F5C reads). -/
def FwEvent.isSend : FwEvent → Bool
  | .queryCrc => false
  | .queryVersion => false
  | _ => true

structure FwUploadPlan where
  imgType : Nat
  targetBank : Nat
  targetNodeId : Nat
  maxChunkBytes : Nat
  expectedCrc : Nat
  firmwareVersion : Nat
deriving DecidableEq

structure FwEnv where
  fileData : Option (List Nat)
  slaveCrc : Option Nat
  slaveVersion : Option Nat
  metadataOk : Bool
  startOk : Bool
  chunkOk : Nat → Bool
  finalizeOk : Bool

/-- Local CRC resolution of the ESP32 variant: plan->expectedCrc, or the
crc-from-file loop when expectedCrc == 0. -/
def espLocalCrc (plan : FwUploadPlan) (l : List Nat) : Nat :=
  if plan.expectedCrc = 0 then crcFileLoopF l.length 0xFFFF l else plan.expectedCrc

/-- Local CRC resolution of the raspberry variant: plan->expectedCrc, or
fw_master_crc16 over the in-memory payload when expectedCrc == 0. -/
def rpiLocalCrc (plan : FwUploadPlan) (l : List Nat) : Nat :=
  if plan.expectedCrc = 0 then fw_master_crc16 l else plan.expectedCrc

/-- The common metadata → start → chunks → finalize tail of both upload
entry points, stopping at the first failed transport call. -/
def uploadSeq (plan : FwUploadPlan) (env : FwEnv) (fileSize chunkSz crc : Nat) :
    Bool × List FwEvent :=
  if env.metadataOk = false then
    (false, [FwEvent.sendMetadata fileSize crc plan.imgType plan.targetBank
      plan.firmwareVersion])
  else if env.startOk = false then
    (false, [FwEvent.sendMetadata fileSize crc plan.imgType plan.targetBank
      plan.firmwareVersion, FwEvent.sendStart])
  else if (streamChunkLoopF chunkSz env.chunkOk fileSize 0 fileSize).1 = false then
    (false, FwEvent.sendMetadata fileSize crc plan.imgType plan.targetBank
      plan.firmwareVersion :: FwEvent.sendStart ::
      (streamChunkLoopF chunkSz env.chunkOk fileSize 0 fileSize).2.map
        (fun p => FwEvent.sendChunk p.1 p.2))
  else
    (env.finalizeOk, FwEvent.sendMetadata fileSize crc plan.imgType plan.targetBank
      plan.firmwareVersion :: FwEvent.sendStart ::
      ((streamChunkLoopF chunkSz env.chunkOk fileSize 0 fileSize).2.map
        (fun p => FwEvent.sendChunk p.1 p.2) ++ [FwEvent.sendFinalize crc]))

/-- bool fw_master_run_upload_session (CAN_ESP32 variant): fail when the
file cannot be opened or its size as reported by ftell is not positive,
else metadata → start → stream-file → finalize. -/
def fw_master_run_upload_session_esp (plan : FwUploadPlan) (env : FwEnv) :
    Bool × List FwEvent :=
  match env.fileData with
  | none => (false, [])
  | some l =>
    if l.length = 0 then (false, [])
    else uploadSeq plan env l.length (esp_chunk_size plan.maxChunkBytes)
      (espLocalCrc plan l)

/-- bool fw_master_run_upload_if_needed (CAN_ESP32 variant): query both the
slave CRC (0x1F5B:1) and the slave version (0x1F5C:1); skip the transfer
and return true exactly when both queries succeed and both values match
the local ones; otherwise run the full upload tail. -/
def fw_master_run_upload_if_needed_esp (plan : FwUploadPlan) (env : FwEnv) :
    Bool × List FwEvent :=
  match env.fileData with
  | none => (false, [])
  | some l =>
    if l.length = 0 then (false, [])
    else
      let crc := espLocalCrc plan l
      let pre := [FwEvent.queryCrc, FwEvent.queryVersion]
      let skip : Bool :=
        match env.slaveCrc, env.slaveVersion with
        | some sc, some sv => sc == crc && sv == plan.firmwareVersion
        | _, _ => false
      if skip then (true, pre)
      else
        let res := uploadSeq plan env l.length (esp_chunk_size plan.maxChunkBytes) crc
        (res.1, pre ++ res.2)

/-- bool fw_master_run_upload_session (raspberry variant): load the whole
payload (failing on unopenable or empty files), then the upload tail with
the unsanitized plan->maxChunkBytes. -/
def fw_master_run_upload_session_rpi (plan : FwUploadPlan) (env : FwEnv) :
    Bool × List FwEvent :=
  match env.fileData with
  | none => (false, [])
  | some l =>
    if l.length = 0 then (false, [])
    else uploadSeq plan env l.length plan.maxChunkBytes (rpiLocalCrc plan l)

/-- bool fw_master_run_upload_if_needed (raspberry variant): query only the
slave CRC; skip and return true when the query succeeds and the CRC
matches, regardless of the firmware version; otherwise the upload tail. -/
def fw_master_run_upload_if_needed_rpi (plan : FwUploadPlan) (env : FwEnv) :
    Bool × List FwEvent :=
  match env.fileData with
  | none => (false, [])
  | some l =>
    if l.length = 0 then (false, [])
    else
      let crc := rpiLocalCrc plan l
      let skip : Bool :=
        match env.slaveCrc with
        | some sc => sc == crc
        | none => false
      if skip then (true, [FwEvent.queryCrc])
      else
        let res := uploadSeq plan env l.length plan.maxChunkBytes crc
        (res.1, FwEvent.queryCrc :: res.2)

/-! ### LSS master engine (CANopen_LSS_Master.c)

The switch (lssState) body of CO_mainTask is embedded as a step function
over an explicit engine state.  The CANopenNode library calls
(CO_LSSmaster_IdentifyFastscan, CO_LSSmaster_configureNodeId,
CO_LSSmaster_configureStore, CO_LSSmaster_Inquire,
CO_LSSmaster_swStateDeselect) and the clock are an environment supplied
per tick; the step also returns the externally visible actions it
performs. -/

def MASTER_NODE_ID : Nat := 0x01
def ID_INICIO_ASIGNACION : Nat := 0x10

structure LssAddr where
  vendor : Nat
  product : Nat
  rev : Nat
  serial : Nat
deriving DecidableEq

structure ConfNode where
  addr : LssAddr
  skipUntilUs : Nat
  assignedNodeId : Nat
deriving DecidableEq

inductive LssState
  | INIT
  | SCANNING
  | CONFIG_ID
  | CONFIG_STORE
  | VERIFY_ID
  | DESELECT
  | ACTIVATE
  | DONE
deriving DecidableEq

/-- Result of the fastscan inner loop of LSS_SCANNING, after the
post-loop collapse of WAIT_SLAVE into TIMEOUT. -/
inductive LssScanResult
  | scanFinished
  | scanNoack
  | timeout
  | other
deriving DecidableEq

/-- Result of CO_LSSmaster_configureNodeId / configureStore / Inquire. -/
inductive LssCfgResult
  | ok
  | okIllegalArgument
  | waitSlave
  | err
deriving DecidableEq

inductive LssAction
  | deselect
  | launchUploads (ids : List Nat)
deriving DecidableEq

structure LssEngine where
  lssState : LssState
  nextId : Nat
  candidate : Nat
  attemptRounds : Nat
  verifyAttempts : Nat
  registry : List ConfNode
  lastFound : LssAddr
  lastDeselectedUs : Nat
  uploadersLaunched : Bool
  lastRescanUs : Nat
deriving DecidableEq

/-- Per-tick oracle: the clock and the return values of the CANopenNode
LSS calls the current state would make. -/
structure LssTickEnv where
  nowUs : Nat
  scanResult : LssScanResult
  scanFound : LssAddr
  cfgIdResult : LssCfgResult
  cfgStoreResult : LssCfgResult
  inquireResult : LssCfgResult
  inquiredId : Nat
  deselectAccepted : Bool
deriving DecidableEq

/-- The candidate/next-id advance used at the three code sites
(LSS_CONFIG_ID illegal-argument, LSS_CONFIG_STORE success, LSS_DESELECT):
id = (id < 127) ? id + 1 : 2, then skip the master's own node id. -/
def lss_skip_master (n : Nat) : Nat :=
  if n = MASTER_NODE_ID then n + 1 else n

/-- Candidate advance, second statement: skip the master's own node id. -/
def lss_next_candidate (c : Nat) : Nat :=
  lss_skip_master (if c < 127 then c + 1 else 2)

/-- First registry record whose LSS address equals a
(CO_LSS_ADDRESS_EQUAL lookup loop). -/
def findConf (l : List ConfNode) (a : LssAddr) : Option ConfNode :=
  l.find? (fun r => decide (r.addr = a))

/-- Whether some registry record has LSS address a. -/
def containsAddr (l : List ConfNode) (a : LssAddr) : Bool :=
  l.any (fun r => decide (r.addr = a))

/-- Refresh skip_until_us of the first record with LSS address a. -/
def touchSkip : List ConfNode → LssAddr → Nat → List ConfNode
  | [], _, _ => []
  | r :: rest, a, t =>
    if r.addr = a then { r with skipUntilUs := t } :: rest
    else r :: touchSkip rest a t

def CONFIGURED_NODE_SKIP_US : Nat := 30000000
def DESELECT_DELAY_US : Nat := 1000000
def RESCAN_INTERVAL_US : Nat := 5000000

/-- One execution of the switch (lssState) body of CO_mainTask. -/
def lssStep (e : LssEngine) (env : LssTickEnv) : LssEngine × List LssAction :=
  match e.lssState with
  | .INIT =>
    ({ e with lssState := .SCANNING, candidate := e.nextId, attemptRounds := 0 }, [])
  | .SCANNING =>
    match env.scanResult with
    | .scanFinished =>
      match findConf e.registry env.scanFound with
      | some r =>
        ({ e with lssState := .CONFIG_ID
                , candidate := r.assignedNodeId
                , lastFound := env.scanFound
                , registry := touchSkip e.registry env.scanFound
                    (env.nowUs + CONFIGURED_NODE_SKIP_US)
                , verifyAttempts := 0 }, [])
      | none =>
        ({ e with lssState := .CONFIG_ID, lastFound := env.scanFound
                , verifyAttempts := 0 }, [])
    | .scanNoack => ({ e with lssState := .DONE }, [])
    | .timeout => ({ e with lssState := .DONE }, [])
    | .other => (e, [])
  | .CONFIG_ID =>
    match env.cfgIdResult with
    | .ok => ({ e with lssState := .CONFIG_STORE }, [])
    | .okIllegalArgument =>
      let cand := lss_next_candidate e.candidate
      let rounds := e.attemptRounds + 1
      if rounds > 126 then
        ({ e with candidate := cand, attemptRounds := rounds, lssState := .DONE }, [])
      else
        ({ e with candidate := cand, attemptRounds := rounds }, [])
    | .waitSlave => (e, [])
    | .err => ({ e with lssState := .INIT }, [])
  | .CONFIG_STORE =>
    match env.cfgStoreResult with
    | .ok =>
      let reg :=
        if containsAddr e.registry e.lastFound ∨ 32 ≤ e.registry.length then
          e.registry
        else
          e.registry ++ [{ addr := e.lastFound
                         , skipUntilUs := env.nowUs + CONFIGURED_NODE_SKIP_US
                         , assignedNodeId := e.candidate }]
      let next := lss_next_candidate e.candidate
      ({ e with lssState := .ACTIVATE, registry := reg, nextId := next
              , candidate := next, attemptRounds := 0, verifyAttempts := 0
              , lastDeselectedUs := env.nowUs }, [LssAction.deselect])
    | .waitSlave => (e, [])
    | _ => ({ e with lssState := .INIT }, [])
  | .VERIFY_ID =>
    match env.inquireResult with
    | .ok =>
      if env.inquiredId &&& 0xFF = e.candidate then
        ({ e with lssState := .DESELECT, verifyAttempts := 0 }, [])
      else if e.verifyAttempts + 1 > 5 then
        ({ e with lssState := .INIT, verifyAttempts := 0 }, [])
      else ({ e with verifyAttempts := e.verifyAttempts + 1 }, [])
    | .waitSlave => (e, [])
    | _ => ({ e with lssState := .DESELECT }, [])
  | .DESELECT =>
    if env.deselectAccepted then
      let next := lss_next_candidate e.candidate
      ({ e with lssState := .ACTIVATE, nextId := next, candidate := next
              , attemptRounds := 0, lastDeselectedUs := env.nowUs },
       [LssAction.deselect])
    else ({ e with lssState := .INIT }, [LssAction.deselect])
  | .ACTIVATE =>
    if e.lastDeselectedUs = 0 then ({ e with lssState := .INIT }, [])
    else if env.nowUs - e.lastDeselectedUs > DESELECT_DELAY_US then
      ({ e with lssState := .INIT, lastDeselectedUs := 0, verifyAttempts := 0 }, [])
    else (e, [])
  | .DONE =>
    let launched : Bool := e.uploadersLaunched || decide (0 < e.registry.length)
    let acts :=
      if e.uploadersLaunched = false ∧ 0 < e.registry.length then
        [LssAction.launchUploads
          (((e.registry.filter (fun r => r.assignedNodeId != MASTER_NODE_ID)).map
              (fun r => r.assignedNodeId)))]
      else []
    if env.nowUs - e.lastRescanUs > RESCAN_INTERVAL_US then
      ({ e with lssState := .INIT, lastRescanUs := env.nowUs
              , uploadersLaunched := false }, acts)
    else ({ e with uploadersLaunched := launched }, acts)

/-- The engine state right after the re-initialization preceding the tick
loop (lssState = LSS_INIT, next_id_to_assign = ID_INICIO_ASIGNACION; the
remaining fields keep their static zero-initialized values). -/
def lssInitEngine : LssEngine :=
  { lssState := .INIT, nextId := ID_INICIO_ASIGNACION, candidate := 0
  , attemptRounds := 0, verifyAttempts := 0, registry := []
  , lastFound := ⟨0, 0, 0, 0⟩, lastDeselectedUs := 0
  , uploadersLaunched := false, lastRescanUs := 0 }

/-- Running the engine over a sequence of tick environments. -/
def lssRun (evs : List LssTickEnv) : LssEngine :=
  evs.foldl (fun e ev => (lssStep e ev).1) lssInitEngine

/-- A CANopen node id usable for a slave: in 2..127 (never the master's
own id 1). -/
def validNodeId (n : Nat) : Prop := 2 ≤ n ∧ n ≤ 127

instance : DecidablePred validNodeId := fun n => by
  unfold validNodeId; infer_instance

/-- The 126 node ids the candidate rotation can range over. -/
def validIdSet : Finset Nat := (Finset.range 128).filter (fun n => 2 ≤ n)

/-! ### Fastscan progress-watchdog loop (LSS_SCANNING inner while loop)

Embedding of the while (ret == CO_LSSmaster_WAIT_SLAVE) loop of the
LSS_SCANNING case, lines 454-505: steps increments on every iteration;
every 256 steps the loop samples the clock, and after more than 500 ms
since the last check compares steps against last_step_at_check, breaking
with TIMEOUT when they are equal, then enforces the 10-second safety
deadline.  The per-iteration result of CO_LSSmaster_IdentifyFastscan and
the sampled clock are an environment. -/

inductive ScanRet
  | waitSlave
  | scanFinished
  | scanNoack
  | timeout
  | invalid
deriving DecidableEq

structure ScanSt where
  steps : Nat
  lastStep : Nat
  lastCheckUs : Nat
deriving DecidableEq

structure ScanEnv where
  retAt : Nat → ScanRet
  timeAt : Nat → Nat

inductive ScanExit
  | noProgressTimeout (st : ScanSt)
  | safetyBreak (r : ScanRet) (st : ScanSt)
  | loopExit (r : ScanRet) (st : ScanSt)
  | fuelOut (st : ScanSt)
deriving DecidableEq

def SCAN_SAFETY_DEADLINE_US : Nat := 10000000
def SCAN_PROGRESS_WINDOW_US : Nat := 500000

/-- One-to-one rendition of the scanning inner loop.  t0 is the clock at
loop entry (progress_deadline_us = t0 + 10 s). -/
def scanLoopF (env : ScanEnv) (t0 : Nat) : Nat → ScanSt → ScanExit
  | 0, st => .fuelOut st
  | fuel + 1, st =>
    let ret := env.retAt st.steps
    let steps := st.steps + 1
    if steps &&& 0xFF = 0 then
      let now := env.timeAt steps
      if now - st.lastCheckUs > SCAN_PROGRESS_WINDOW_US then
        if steps = st.lastStep ∧ ret = .waitSlave then
          .noProgressTimeout { steps := steps, lastStep := st.lastStep
                             , lastCheckUs := st.lastCheckUs }
        else
          let st1 : ScanSt := { steps := steps, lastStep := steps, lastCheckUs := now }
          if now > t0 + SCAN_SAFETY_DEADLINE_US then .safetyBreak ret st1
          else if ret = .waitSlave then scanLoopF env t0 fuel st1
          else .loopExit ret st1
      else
        let st1 : ScanSt := { steps := steps, lastStep := st.lastStep
                            , lastCheckUs := st.lastCheckUs }
        if now > t0 + SCAN_SAFETY_DEADLINE_US then .safetyBreak ret st1
        else if ret = .waitSlave then scanLoopF env t0 fuel st1
        else .loopExit ret st1
    else
      let st1 : ScanSt := { steps := steps, lastStep := st.lastStep
                          , lastCheckUs := st.lastCheckUs }
      if ret = .waitSlave then scanLoopF env t0 fuel st1
      else .loopExit ret st1

/-- Whether the loop left through the 500 ms no-progress branch. -/
def ScanExit.isNoProgress : ScanExit → Bool
  | .noProgressTimeout _ => true
  | _ => false

/-- A bus on which the fastscan is permanently stalled: every step returns
WAIT_SLAVE and the clock advances 2 ms (one fast_step_us) per step. -/
def stallScanEnv : ScanEnv :=
  { retAt := fun _ => .waitSlave, timeAt := fun s => 2000 * s }

/-! ### Concrete instances used by counterexamples and witnesses -/

def c1CxPlan : FwUploadPlan :=
  { imgType := 0, targetBank := 1, targetNodeId := 5, maxChunkBytes := 256
  , expectedCrc := 5, firmwareVersion := 7 }

def c1CxEnv : FwEnv :=
  { fileData := some [1, 2, 3], slaveCrc := some 5, slaveVersion := some 99
  , metadataOk := true, startOk := true, chunkOk := fun _ => true
  , finalizeOk := true }

def c1WitPlan : FwUploadPlan :=
  { imgType := 0, targetBank := 1, targetNodeId := 5, maxChunkBytes := 256
  , expectedCrc := 9, firmwareVersion := 7 }

def c1WitEnv : FwEnv :=
  { fileData := some [1, 2, 3], slaveCrc := some 9, slaveVersion := some 7
  , metadataOk := true, startOk := true, chunkOk := fun _ => true
  , finalizeOk := true }

def c10WitEnv : FwEnv :=
  { fileData := none, slaveCrc := none, slaveVersion := none
  , metadataOk := true, startOk := true, chunkOk := fun _ => true
  , finalizeOk := true }

def c4WitData : List Nat := [1, 2, 3, 4, 5, 6, 7, 8, 9]

/-- An SDO server that acknowledges the initiate and echoes toggle 0 on
every segment response: correct for segment 0, wrong for segment 1. -/
def c4WitResp : Nat → Option (List Nat) := fun k =>
  if k = 0 then some [0x60, 0, 0, 0, 0, 0, 0, 0]
  else some [0x20, 0, 0, 0, 0, 0, 0, 0]

def defaultTick : LssTickEnv :=
  { nowUs := 0, scanResult := .other, scanFound := ⟨0, 0, 0, 0⟩
  , cfgIdResult := .waitSlave, cfgStoreResult := .waitSlave
  , inquireResult := .waitSlave, inquiredId := 0, deselectAccepted := false }

def c8WitAddr : LssAddr := ⟨0xAA, 1, 0, 0xDEADBEEF⟩

/-- Four ticks driving one node through INIT → SCANNING → CONFIG_ID →
CONFIG_STORE, leaving one configured record. -/
def c8WitEnvs : List LssTickEnv :=
  [defaultTick,
   { defaultTick with scanResult := .scanFinished, scanFound := c8WitAddr },
   { defaultTick with cfgIdResult := .ok },
   { defaultTick with cfgStoreResult := .ok }]

def c9WitEngine : LssEngine :=
  { lssInitEngine with lssState := .CONFIG_STORE, candidate := 16 }

def c9WitEnv : LssTickEnv := { defaultTick with cfgStoreResult := .ok }

def c6WitEngineIll : LssEngine :=
  { lssInitEngine with lssState := .CONFIG_ID, candidate := 16, attemptRounds := 126 }

def c6WitEnvIll : LssTickEnv := { defaultTick with cfgIdResult := .okIllegalArgument }

def c8WitRec : ConfNode :=
  { addr := c8WitAddr, skipUntilUs := 30000000, assignedNodeId := 16 }

/-- Registry part of the engine invariant: pairwise-distinct LSS
addresses, all assigned ids valid slave ids, bounded capacity. -/
def RegistryInv (e : LssEngine) : Prop :=
  (e.registry.map ConfNode.addr).Nodup ∧
  (∀ r ∈ e.registry, validNodeId r.assignedNodeId) ∧
  e.registry.length ≤ 32

/-- Full inductive invariant of the engine: the registry invariant plus
validity of the allocator variables (the candidate is only meaningful
outside LSS_INIT, where it is re-primed from next_id_to_assign). -/
def EngineInv (e : LssEngine) : Prop :=
  RegistryInv e ∧ validNodeId e.nextId ∧
    (validNodeId e.candidate ∨ e.lssState = .INIT)

/-! ## Theorems -/

/-! ### CRC-16 lemmas and claim C2 -/

theorem crc16_update_append (crc : Nat) (a b : List Nat) :
    crc16_update crc (a ++ b) = crc16_update (crc16_update crc a) b := by
  simp [crc16_update, List.foldl_append]

theorem crcFileLoopF_eq_update :
    ∀ (fuel crc : Nat) (l : List Nat), l.length ≤ fuel →
      crcFileLoopF fuel crc l = crc16_update crc l := by
  intro fuel
  induction fuel with
  | zero =>
    intro crc l hl
    cases l with
    | nil => simp [crcFileLoopF, crc16_update]
    | cons a t => simp at hl
  | succ n ih =>
    intro crc l hl
    cases l with
    | nil => simp [crcFileLoopF, crc16_update]
    | cons a t =>
      have hstep : crcFileLoopF (n + 1) crc (a :: t) =
          crcFileLoopF n (crc16_update crc ((a :: t).take 1024)) ((a :: t).drop 1024) := rfl
      have hlen : ((a :: t).drop 1024).length ≤ n := by
        simp only [List.length_drop, List.length_cons]
        simp only [List.length_cons] at hl
        omega
      rw [hstep, ih _ _ hlen, ← crc16_update_append, List.take_append_drop]

set_option maxRecDepth 40000 in
/-- C2: fw_master_crc16 is CRC-16/CCITT-FALSE (checked on the standard
check string "123456789", value 0x29B1) and is independent of chunk
boundaries: the CRC of a concatenation equals the continuation of the
running update, and the 1024-byte-buffer file loop of
fw_master_crc_from_file agrees with fw_master_crc16 over the whole
contents. -/
theorem c2_crc16_chunk_independent :
    (∀ a b : List Nat, fw_master_crc16 (a ++ b) = crc16_update (fw_master_crc16 a) b)
    ∧ (∀ (crc : Nat) (a b : List Nat),
        crc16_update crc (a ++ b) = crc16_update (crc16_update crc a) b)
    ∧ (∀ l : List Nat, l ≠ [] → fw_master_crc_from_file l = some (fw_master_crc16 l))
    ∧ fw_master_crc16 [0x31, 0x32, 0x33, 0x34, 0x35, 0x36, 0x37, 0x38, 0x39] = 0x29B1 := by
  refine ⟨?_, ?_, ?_, ?_⟩
  · intro a b
    exact crc16_update_append 0xFFFF a b
  · intro crc a b
    exact crc16_update_append crc a b
  · intro l hl
    unfold fw_master_crc_from_file
    rw [if_neg hl]
    exact congrArg some (crcFileLoopF_eq_update l.length 0xFFFF l le_rfl)
  · decide

theorem c2_witness :
    ([1, 2, 3] : List Nat) ≠ [] ∧
      fw_master_crc_from_file [1, 2, 3] = some (fw_master_crc16 [1, 2, 3]) :=
  ⟨by decide, c2_crc16_chunk_independent.2.2.1 [1, 2, 3] (by decide)⟩

/-! ### SDO segmented download: claims C3 and C4 -/

theorem sdoSegLoopF_goodResp :
    ∀ (fuel k : Nat) (data : List Nat), data.length ≤ fuel →
      sdoSegLoopF goodResp fuel (k % 2) (k + 1) data =
        (true, specSegFramesF fuel (k % 2) data, SDO_ABORT_NONE) := by
  intro fuel
  induction fuel with
  | zero =>
    intro k data hl
    cases data with
    | nil => simp [sdoSegLoopF, specSegFramesF]
    | cons a t => simp at hl
  | succ n ih =>
    intro k data hl
    cases data with
    | nil => simp [sdoSegLoopF, specSegFramesF]
    | cons a t =>
      have hresp : goodResp (k + 1) =
          some [0x20 ||| ((k % 2) <<< 4), 0, 0, 0, 0, 0, 0, 0] := by
        simp [goodResp]
      have hlen : ((a :: t).drop 7).length ≤ n := by
        simp only [List.length_drop, List.length_cons]
        simp only [List.length_cons] at hl
        omega
      have hrec := ih (k + 1) ((a :: t).drop 7) hlen
      rcases Nat.mod_two_eq_zero_or_one k with hk | hk
      · have hk1 : (k + 1) % 2 = 1 := by omega
        rw [hk1] at hrec
        simp only [sdoSegLoopF, specSegFramesF, hresp, hk, List.cons_ne_nil,
          if_false, reduceCtorEq, ite_false]
        norm_num
        rw [if_neg (by decide), if_neg (by decide)]
        simp only [List.drop_succ_cons] at hrec
        rw [hrec]
        simp [segmentFrame, Nat.min_comm]
      · have hk1 : (k + 1) % 2 = 0 := by omega
        rw [hk1] at hrec
        simp only [sdoSegLoopF, specSegFramesF, hresp, hk, List.cons_ne_nil,
          if_false, reduceCtorEq, ite_false]
        norm_num
        rw [if_neg (by decide), if_neg (by decide)]
        simp only [List.drop_succ_cons] at hrec
        rw [hrec]
        simp [segmentFrame, Nat.min_comm]

theorem specSegFramesF_length :
    ∀ (fuel t : Nat) (data : List Nat), data.length ≤ fuel →
      (specSegFramesF fuel t data).length = (data.length + 6) / 7 := by
  intro fuel
  induction fuel with
  | zero =>
    intro t data hl
    cases data with
    | nil => simp [specSegFramesF]
    | cons a d => simp at hl
  | succ n ih =>
    intro t data hl
    cases data with
    | nil => simp [specSegFramesF]
    | cons a d =>
      have hlen : ((a :: d).drop 7).length ≤ n := by
        simp only [List.length_drop, List.length_cons]
        simp only [List.length_cons] at hl
        omega
      simp only [specSegFramesF, List.length_cons, ih (t ^^^ 1) _ hlen,
        List.length_drop]
      omega

/-- C3: a segmented sdo_download (payload longer than 4 bytes) against an
acknowledging server transmits exactly the 0x21 initiate frame with the
little-endian index, sub-index and 32-bit size, followed by ceil(len/7)
segment frames with alternating toggle bits 0,1,0,..., each carrying
min(7, remaining) bytes and command byte (toggle<<4)|((7-segLen)<<1)|last;
for a 7-byte payload this is the single segment [0x01, b0..b6]. -/
theorem c3_segmented_download_frames :
    (∀ (index sub : Nat) (data : List Nat), 4 < data.length →
      sdo_download index sub data goodResp =
        (true, segInitiateFrame index sub data.length :: specSegFrames 0 data,
         SDO_ABORT_NONE))
    ∧ (∀ (t : Nat) (data : List Nat),
        (specSegFrames t data).length = (data.length + 6) / 7)
    ∧ (∀ (index sub b0 b1 b2 b3 b4 b5 b6 : Nat),
        sdo_download index sub [b0, b1, b2, b3, b4, b5, b6] goodResp =
          (true,
           [[0x21, index &&& 0xFF, (index >>> 8) &&& 0xFF, sub,
             0x07, 0x00, 0x00, 0x00],
            [0x01, b0, b1, b2, b3, b4, b5, b6]],
           SDO_ABORT_NONE)) := by
  have hmain : ∀ (index sub : Nat) (data : List Nat), 4 < data.length →
      sdo_download index sub data goodResp =
        (true, segInitiateFrame index sub data.length :: specSegFrames 0 data,
         SDO_ABORT_NONE) := by
    intro index sub data hlen
    have hresp0 : goodResp 0 = some [0x60, 0, 0, 0, 0, 0, 0, 0] := by
      simp [goodResp]
    have hloop := sdoSegLoopF_goodResp data.length 0 data le_rfl
    simp only [Nat.zero_mod, Nat.zero_add] at hloop
    simp only [sdo_download, hresp0]
    rw [if_neg (by omega)]
    norm_num
    rw [hloop]
    rfl
  refine ⟨hmain, ?_, ?_⟩
  · intro t data
    exact specSegFramesF_length data.length t data le_rfl
  · intro index sub b0 b1 b2 b3 b4 b5 b6
    have h := hmain index sub [b0, b1, b2, b3, b4, b5, b6] (by simp)
    rw [h]
    simp [segInitiateFrame, specSegFrames, specSegFramesF, padZeros]
    decide

theorem sdoSegLoopF_toggle_mismatch :
    ∀ (m fuel toggle k : Nat) (rest : List Nat) (resp : Nat → Option (List Nat)),
      rest.length ≤ fuel → toggle < 2 →
      (∀ j, j < m → goodSegResp (resp (k + j)) ((toggle + j) % 2)) →
      7 * m < rest.length →
      badSegResp (resp (k + m)) ((toggle + m) % 2) →
      (sdoSegLoopF resp fuel toggle k rest).1 = false ∧
      (sdoSegLoopF resp fuel toggle k rest).2.2 = SDO_ABORT_TOGGLE_ERROR ∧
      (sdoSegLoopF resp fuel toggle k rest).2.1.length = m + 1 := by
  intro m
  induction m with
  | zero =>
    intro fuel toggle k rest resp hfuel htog hgood hlt hbad
    obtain ⟨r, hr, habort, hecho⟩ := hbad
    rw [Nat.add_zero] at hr
    rw [Nat.add_zero, Nat.mod_eq_of_lt htog] at hecho
    cases rest with
    | nil => simp at hlt
    | cons a t =>
      cases fuel with
      | zero => simp at hfuel
      | succ n =>
        simp only [sdoSegLoopF, List.cons_ne_nil, if_false, reduceCtorEq,
          ite_false, hr]
        rw [if_neg habort, if_pos hecho]
        exact ⟨rfl, rfl, rfl⟩
  | succ m ih =>
    intro fuel toggle k rest resp hfuel htog hgood hlt hbad
    obtain ⟨r, hr, habort, hecho⟩ := hgood 0 (Nat.succ_pos m)
    rw [Nat.add_zero] at hr
    rw [Nat.add_zero, Nat.mod_eq_of_lt htog] at hecho
    cases rest with
    | nil => simp at hlt
    | cons a t =>
      cases fuel with
      | zero => simp at hfuel
      | succ n =>
        have hlen : ((a :: t).drop 7).length ≤ n := by
          simp only [List.length_drop, List.length_cons]
          simp only [List.length_cons] at hfuel
          omega
        have htog1 : toggle ^^^ 1 < 2 := by interval_cases toggle <;> decide
        have hgood1 : ∀ j, j < m →
            goodSegResp (resp (k + 1 + j)) (((toggle ^^^ 1) + j) % 2) := by
          intro j hj
          have h := hgood (j + 1) (by omega)
          have e1 : k + (j + 1) = k + 1 + j := by omega
          have e2 : (toggle + (j + 1)) % 2 = ((toggle ^^^ 1) + j) % 2 := by
            interval_cases toggle <;> simp <;> omega
          rw [e1, e2] at h
          exact h
        have hlt1 : 7 * m < ((a :: t).drop 7).length := by
          simp only [List.length_drop, List.length_cons]
          simp only [List.length_cons] at hlt ⊢
          omega
        have hbad1 : badSegResp (resp (k + 1 + m)) (((toggle ^^^ 1) + m) % 2) := by
          have e1 : k + (m + 1) = k + 1 + m := by omega
          have e2 : (toggle + (m + 1)) % 2 = ((toggle ^^^ 1) + m) % 2 := by
            interval_cases toggle <;> simp <;> omega
          rw [e1, e2] at hbad
          exact hbad
        have hrec := ih n (toggle ^^^ 1) (k + 1) ((a :: t).drop 7) resp
          hlen htog1 hgood1 hlt1 hbad1
        simp only [sdoSegLoopF, List.cons_ne_nil, if_false, reduceCtorEq,
          ite_false, hr]
        rw [if_neg habort, if_neg (by simpa using hecho)]
        refine ⟨hrec.1, hrec.2.1, ?_⟩
        simp only [List.length_cons, hrec.2.2]

/-- C4: in a segmented sdo_download, if a segment response that is not an
abort echoes a toggle bit different from the one just transmitted, the
client stops the transfer (no further segment is sent), returns false and
leaves g_last_abort_code = 0x05030000 (SDO_ABORT_TOGGLE_ERROR): after m
correctly acknowledged segments and a mismatching response to segment m,
exactly m + 2 frames (initiate plus m + 1 segments) have been sent. -/
theorem c4_toggle_mismatch_aborts :
    ∀ (index sub : Nat) (data : List Nat) (resp : Nat → Option (List Nat)) (m : Nat),
      4 < data.length →
      okInitResp (resp 0) →
      (∀ j, j < m → goodSegResp (resp (j + 1)) (j % 2)) →
      7 * m < data.length →
      badSegResp (resp (m + 1)) (m % 2) →
      (sdo_download index sub data resp).1 = false ∧
      (sdo_download index sub data resp).2.2 = SDO_ABORT_TOGGLE_ERROR ∧
      (sdo_download index sub data resp).2.1.length = m + 2 := by
  intro index sub data resp m hlen hinit hgood hlt hbad
  obtain ⟨r0, hr0, hr0e⟩ := hinit
  have hgood' : ∀ j, j < m → goodSegResp (resp (1 + j)) ((0 + j) % 2) := by
    intro j hj
    have h := hgood j hj
    rw [show j + 1 = 1 + j from by omega] at h
    simpa using h
  have hbad' : badSegResp (resp (1 + m)) ((0 + m) % 2) := by
    rw [show m + 1 = 1 + m from by omega] at hbad
    simpa using hbad
  have hrec := sdoSegLoopF_toggle_mismatch m data.length 0 1 data resp
    le_rfl (by omega) hgood' hlt hbad'
  simp only [sdo_download, hr0]
  rw [if_neg (by omega), if_neg (by rw [hr0e]; decide), if_neg (by rw [hr0e]; decide)]
  refine ⟨hrec.1, hrec.2.1, ?_⟩
  simp only [List.length_cons, hrec.2.2]

theorem c3_witness :
    sdo_download 0x1F57 1 [1, 2, 3, 4, 5] goodResp =
      (true, segInitiateFrame 0x1F57 1 [1, 2, 3, 4, 5].length ::
        specSegFrames 0 [1, 2, 3, 4, 5], SDO_ABORT_NONE) :=
  c3_segmented_download_frames.1 0x1F57 1 [1, 2, 3, 4, 5] (by decide)

theorem c4_witness :
    (sdo_download 0x1F50 1 c4WitData c4WitResp).1 = false ∧
    (sdo_download 0x1F50 1 c4WitData c4WitResp).2.2 = SDO_ABORT_TOGGLE_ERROR ∧
    (sdo_download 0x1F50 1 c4WitData c4WitResp).2.1.length = 1 + 2 :=
  c4_toggle_mismatch_aborts 0x1F50 1 c4WitData c4WitResp 1 (by decide)
    ⟨[0x60, 0, 0, 0, 0, 0, 0, 0], rfl, by decide⟩
    (fun j hj => by
      interval_cases j
      exact ⟨[0x20, 0, 0, 0, 0, 0, 0, 0], rfl, by decide, by decide⟩)
    (by decide)
    ⟨[0x20, 0, 0, 0, 0, 0, 0, 0], rfl, by decide, by decide⟩

/-! ### Firmware chunk streaming: claim C5 -/

theorem streamChunkLoopF_all_ok (maxChunk : Nat) (hpos : 0 < maxChunk) :
    ∀ (fuel offset size : Nat), size ≤ fuel →
      streamChunkLoopF maxChunk (fun _ => true) fuel offset size =
        (true, specChunksF maxChunk fuel offset size) := by
  intro fuel
  induction fuel with
  | zero =>
    intro offset size h
    have hz : size = 0 := by omega
    subst hz
    simp [streamChunkLoopF, specChunksF]
  | succ n ih =>
    intro offset size h
    by_cases h0 : size = 0
    · subst h0
      simp [streamChunkLoopF, specChunksF]
    · have hmin : ¬ min size maxChunk = 0 := by omega
      have hmin2 : ¬ min maxChunk size = 0 := by omega
      simp only [streamChunkLoopF, specChunksF]
      rw [if_neg h0, if_neg hmin, if_neg h0, if_neg hmin2,
        Nat.min_comm maxChunk size,
        ih (offset + min size maxChunk) (size - min size maxChunk) (by omega)]
      simp

theorem streamChunkLoopF_first_fail (maxChunk : Nat) (f : Nat → Bool)
    (hpos : 0 < maxChunk) :
    ∀ (i fuel offset size : Nat), size ≤ fuel →
      i * maxChunk < size →
      (∀ j, j < i → f (offset + j * maxChunk) = true) →
      f (offset + i * maxChunk) = false →
      streamChunkLoopF maxChunk f fuel offset size =
        (false, (specChunksF maxChunk fuel offset size).take (i + 1)) := by
  intro i
  induction i with
  | zero =>
    intro fuel offset size hfuel hlt hgood hbad
    cases fuel with
    | zero => omega
    | succ n =>
      have h0 : ¬ size = 0 := by omega
      have hmin : ¬ min size maxChunk = 0 := by omega
      have hmin2 : ¬ min maxChunk size = 0 := by omega
      have hbad0 : f offset = false := by simpa using hbad
      simp only [streamChunkLoopF, specChunksF]
      rw [if_neg h0, if_neg hmin, if_neg h0, if_neg hmin2, hbad0,
        Nat.min_comm maxChunk size]
      simp
  | succ i ih =>
    intro fuel offset size hfuel hlt hgood hbad
    rw [show (i + 1) * maxChunk = i * maxChunk + maxChunk from by ring] at hlt
    cases fuel with
    | zero => omega
    | succ n =>
      have h0 : ¬ size = 0 := by omega
      have hmin : ¬ min size maxChunk = 0 := by omega
      have hmin2 : ¬ min maxChunk size = 0 := by omega
      have hchunk : min size maxChunk = maxChunk := by omega
      have hgood0 : f offset = true := by simpa using hgood 0 (by omega)
      have hgood1 : ∀ j, j < i → f (offset + maxChunk + j * maxChunk) = true := by
        intro j hj
        have h := hgood (j + 1) (by omega)
        rw [show offset + (j + 1) * maxChunk = offset + maxChunk + j * maxChunk
          from by ring] at h
        exact h
      have hbad1 : f (offset + maxChunk + i * maxChunk) = false := by
        rw [show offset + maxChunk + i * maxChunk = offset + (i + 1) * maxChunk
          from by ring]
        exact hbad
      have hrec := ih n (offset + maxChunk) (size - maxChunk) (by omega)
        (by omega) hgood1 hbad1
      simp only [streamChunkLoopF, specChunksF]
      rw [if_neg h0, if_neg hmin, if_neg h0, if_neg hmin2, hgood0,
        Nat.min_comm maxChunk size, hchunk, hrec]
      simp

/-- The ESP32 chunk-size sanitization always yields a value in 1..1024 and
is the identity there. -/
theorem esp_chunk_size_bounds (maxChunk : Nat) :
    1 ≤ esp_chunk_size maxChunk ∧ esp_chunk_size maxChunk ≤ 1024 ∧
      (1 ≤ maxChunk → maxChunk ≤ 1024 → esp_chunk_size maxChunk = maxChunk) := by
  unfold esp_chunk_size
  split_ifs with h
  · omega
  · omega

/-- C5 (amended): streaming sends chunks of length min(effective chunk
size, remaining) at increasing offsets covering the whole file, where the
effective chunk size is max_chunk_bytes for fw_master_stream_payload
(which requires max_chunk_bytes ≥ 1) and max_chunk_bytes clamped into
1..1024 for fw_master_stream_file; on the first chunk failure the stream
stops and fails; a 3172-byte image at max_chunk 256 yields exactly 13
chunks, twelve of 256 bytes and one of 100. -/
theorem c5_chunking_amended :
    (∀ maxChunk size : Nat, 0 < maxChunk →
      fw_master_stream_payload maxChunk size (fun _ => true) =
        (true, specChunks maxChunk 0 size))
    ∧ (∀ maxChunk size : Nat,
        fw_master_stream_file maxChunk size (fun _ => true) =
          (true, specChunks (esp_chunk_size maxChunk) 0 size))
    ∧ (∀ (maxChunk size : Nat) (f : Nat → Bool) (i : Nat), 0 < maxChunk →
        i * maxChunk < size →
        (∀ j, j < i → f (j * maxChunk) = true) →
        f (i * maxChunk) = false →
        fw_master_stream_payload maxChunk size f =
          (false, (specChunks maxChunk 0 size).take (i + 1)))
    ∧ fw_master_stream_payload 256 3172 (fun _ => true) = (true, chunks3172)
    ∧ fw_master_stream_file 256 3172 (fun _ => true) = (true, chunks3172)
    ∧ chunks3172.map Prod.snd = List.replicate 12 256 ++ [100]
    ∧ chunks3172.length = 13 := by
  refine ⟨?_, ?_, ?_, by decide, by decide, by decide, by decide⟩
  · intro maxChunk size hpos
    exact streamChunkLoopF_all_ok maxChunk hpos size 0 size le_rfl
  · intro maxChunk size
    exact streamChunkLoopF_all_ok (esp_chunk_size maxChunk)
      (esp_chunk_size_bounds maxChunk).1 size 0 size le_rfl
  · intro maxChunk size f i hpos hlt hgood hbad
    have hgood' : ∀ j, j < i → f (0 + j * maxChunk) = true := by
      intro j hj
      simpa using hgood j hj
    have hbad' : f (0 + i * maxChunk) = false := by simpa using hbad
    exact streamChunkLoopF_first_fail maxChunk f hpos i size 0 size
      le_rfl hlt hgood' hbad'

/-- C5 counterexample: the claim states every chunk has length
min(max_chunk_bytes, remaining); for the ESP32 fw_master_stream_file with
max_chunk_bytes = 2000 and a 3000-byte file the first chunk has length
1024 (the sanitized size), not min(2000, 3000) = 2000. -/
theorem c5_counterexample :
    (fw_master_stream_file 2000 3000 (fun _ => true)).2.headD (0, 0) = (0, 1024) ∧
      ¬ ((0, 1024) = ((0 : Nat), min 2000 3000)) := by decide

theorem c5_witness :
    fw_master_stream_payload 4 10 (fun o => decide (o < 4)) =
      (false, (specChunks 4 0 10).take 2) :=
  c5_chunking_amended.2.2.1 4 10 (fun o => decide (o < 4)) 1 (by decide) (by decide)
    (fun j hj => by interval_cases j; decide) (by decide)

/-! ### Upload orchestration: claims C1 and C10 -/

theorem uploadSeq_head (plan : FwUploadPlan) (env : FwEnv) (fileSize chunkSz crc : Nat) :
    ∃ rest, (uploadSeq plan env fileSize chunkSz crc).2 =
      FwEvent.sendMetadata fileSize crc plan.imgType plan.targetBank
        plan.firmwareVersion :: rest := by
  unfold uploadSeq
  split_ifs <;> exact ⟨_, rfl⟩

/-- C1 (amended): the ESP32 fw_master_run_upload_if_needed skips the
transfer and returns success exactly when both the remote CRC query and
the remote version query succeed and both values equal the local CRC and
version (no 0x1F57/0x1F51/0x1F50/0x1F5A write occurs), and otherwise
proceeds to the metadata, start, chunks, finalize sequence; the raspberry
fw_master_run_upload_if_needed only queries the remote CRC and skips
exactly when that query succeeds with a matching value. -/
theorem c1_precheck_amended :
    ∀ (plan : FwUploadPlan) (env : FwEnv) (l : List Nat),
      env.fileData = some l → l ≠ [] →
      ((∀ sc sv, env.slaveCrc = some sc → env.slaveVersion = some sv →
          sc = espLocalCrc plan l → sv = plan.firmwareVersion →
          fw_master_run_upload_if_needed_esp plan env =
            (true, [FwEvent.queryCrc, FwEvent.queryVersion]))
        ∧ ((env.slaveCrc = none ∨ env.slaveVersion = none ∨
            (∃ sc, env.slaveCrc = some sc ∧ sc ≠ espLocalCrc plan l) ∨
            (∃ sv, env.slaveVersion = some sv ∧ sv ≠ plan.firmwareVersion)) →
          ∃ rest, (fw_master_run_upload_if_needed_esp plan env).2 =
            FwEvent.queryCrc :: FwEvent.queryVersion ::
              FwEvent.sendMetadata l.length (espLocalCrc plan l) plan.imgType
                plan.targetBank plan.firmwareVersion :: rest)
        ∧ (env.slaveCrc = some (rpiLocalCrc plan l) →
          fw_master_run_upload_if_needed_rpi plan env = (true, [FwEvent.queryCrc]))
        ∧ ((env.slaveCrc = none ∨
            (∃ sc, env.slaveCrc = some sc ∧ sc ≠ rpiLocalCrc plan l)) →
          ∃ rest, (fw_master_run_upload_if_needed_rpi plan env).2 =
            FwEvent.queryCrc ::
              FwEvent.sendMetadata l.length (rpiLocalCrc plan l) plan.imgType
                plan.targetBank plan.firmwareVersion :: rest)) := by
  intro plan env l hf hne
  have hlen : ¬ l.length = 0 := by simpa using hne
  refine ⟨?_, ?_, ?_, ?_⟩
  · intro sc sv hsc hsv hceq hveq
    subst hceq
    subst hveq
    simp only [fw_master_run_upload_if_needed_esp, hf, hsc, hsv]
    rw [if_neg hlen]
    simp
  · intro hcase
    have hskip :
        (match env.slaveCrc, env.slaveVersion with
          | some sc, some sv =>
            sc == espLocalCrc plan l && sv == plan.firmwareVersion
          | _, _ => false) = false := by
      rcases hcase with h | h | ⟨sc, hsc, hne'⟩ | ⟨sv, hsv, hne'⟩
      · rw [h]
      · rw [h]
        cases env.slaveCrc <;> rfl
      · rw [hsc]
        cases hv : env.slaveVersion
        · rfl
        · simp [hne']
      · rw [hsv]
        cases hc : env.slaveCrc
        · rfl
        · simp [hne']
    obtain ⟨rest, hrest⟩ := uploadSeq_head plan env l.length
      (esp_chunk_size plan.maxChunkBytes) (espLocalCrc plan l)
    refine ⟨rest, ?_⟩
    simp only [fw_master_run_upload_if_needed_esp, hf]
    rw [if_neg hlen]
    simp only [hskip]
    simp [hrest]
  · intro hsc
    simp only [fw_master_run_upload_if_needed_rpi, hf, hsc]
    rw [if_neg hlen]
    simp
  · intro hcase
    have hskip :
        (match env.slaveCrc with
          | some sc => sc == rpiLocalCrc plan l
          | none => false) = false := by
      rcases hcase with h | ⟨sc, hsc, hne'⟩
      · rw [h]
      · rw [hsc]
        simp [hne']
    obtain ⟨rest, hrest⟩ := uploadSeq_head plan env l.length
      plan.maxChunkBytes (rpiLocalCrc plan l)
    refine ⟨rest, ?_⟩
    simp only [fw_master_run_upload_if_needed_rpi, hf]
    rw [if_neg hlen]
    simp only [hskip]
    simp [hrest]

/-- C1 counterexample: the raspberry fw_master_run_upload_if_needed, on a
plan with local version 7 and an environment whose remote version query
would return 99 (a mismatch), still returns success with no 0x1F57/0x1F51
/0x1F50/0x1F5A write because the remote CRC alone matches, contradicting
the claim that any value difference makes it proceed with the upload. -/
theorem c1_counterexample :
    fw_master_run_upload_if_needed_rpi c1CxPlan c1CxEnv =
      (true, [FwEvent.queryCrc]) ∧
    c1CxEnv.slaveVersion = some 99 ∧
    c1CxPlan.firmwareVersion = 7 ∧
    ¬ ((99 : Nat) = 7) ∧
    (fw_master_run_upload_if_needed_rpi c1CxPlan c1CxEnv).2.all
      (fun ev => !ev.isSend) = true := by
  decide

theorem c1_witness :
    fw_master_run_upload_if_needed_esp c1WitPlan c1WitEnv =
      (true, [FwEvent.queryCrc, FwEvent.queryVersion]) :=
  (c1_precheck_amended c1WitPlan c1WitEnv [1, 2, 3] rfl (by decide)).1
    9 7 rfl rfl (by decide) rfl

/-- C10: when the firmware file cannot be opened or its size as reported
by ftell is zero (a negative ftell result is subsumed by the same failing
branch), all four upload entry points return false with an empty event
trace: no metadata, start, chunk, finalize or remote query is performed. -/
theorem c10_file_errors :
    ∀ (plan : FwUploadPlan) (env : FwEnv),
      env.fileData = none ∨ env.fileData = some [] →
      fw_master_run_upload_if_needed_esp plan env = (false, []) ∧
      fw_master_run_upload_session_esp plan env = (false, []) ∧
      fw_master_run_upload_if_needed_rpi plan env = (false, []) ∧
      fw_master_run_upload_session_rpi plan env = (false, []) := by
  intro plan env h
  rcases h with h | h <;>
    simp [fw_master_run_upload_if_needed_esp, fw_master_run_upload_session_esp,
      fw_master_run_upload_if_needed_rpi, fw_master_run_upload_session_rpi, h]

theorem c10_witness :
    fw_master_run_upload_if_needed_esp c1CxPlan c10WitEnv = (false, []) ∧
    fw_master_run_upload_session_esp c1CxPlan c10WitEnv = (false, []) ∧
    fw_master_run_upload_if_needed_rpi c1CxPlan c10WitEnv = (false, []) ∧
    fw_master_run_upload_session_rpi c1CxPlan c10WitEnv = (false, []) :=
  c10_file_errors c1CxPlan c10WitEnv (Or.inl rfl)

/-! ### LSS engine lemmas and claims C6, C8, C9 -/

theorem lss_next_candidate_valid (c : Nat) : validNodeId (lss_next_candidate c) := by
  unfold lss_next_candidate lss_skip_master validNodeId MASTER_NODE_ID
  split_ifs <;> omega

theorem touchSkip_map_addr (a : LssAddr) (t : Nat) :
    ∀ l : List ConfNode, (touchSkip l a t).map ConfNode.addr = l.map ConfNode.addr := by
  intro l
  induction l with
  | nil => rfl
  | cons r rest ih =>
    unfold touchSkip
    split_ifs with h
    · rfl
    · simp only [List.map_cons, ih]

theorem touchSkip_map_id (a : LssAddr) (t : Nat) :
    ∀ l : List ConfNode,
      (touchSkip l a t).map ConfNode.assignedNodeId = l.map ConfNode.assignedNodeId := by
  intro l
  induction l with
  | nil => rfl
  | cons r rest ih =>
    unfold touchSkip
    split_ifs with h
    · rfl
    · simp only [List.map_cons, ih]

theorem touchSkip_length (a : LssAddr) (t : Nat) :
    ∀ l : List ConfNode, (touchSkip l a t).length = l.length := by
  intro l
  have h := congrArg List.length (touchSkip_map_addr a t l)
  simpa using h

theorem touchSkip_ids (a : LssAddr) (t : Nat) (l : List ConfNode)
    (h : ∀ r ∈ l, validNodeId r.assignedNodeId) :
    ∀ r ∈ touchSkip l a t, validNodeId r.assignedNodeId := by
  intro r hr
  have hmem : r.assignedNodeId ∈ (touchSkip l a t).map ConfNode.assignedNodeId :=
    List.mem_map_of_mem _ hr
  rw [touchSkip_map_id] at hmem
  obtain ⟨r0, hr0, he⟩ := List.mem_map.mp hmem
  rw [← he]
  exact h r0 hr0

theorem containsAddr_false_not_mem {l : List ConfNode} {a : LssAddr}
    (h : containsAddr l a = false) : a ∉ l.map ConfNode.addr := by
  intro hmem
  obtain ⟨r, hr, he⟩ := List.mem_map.mp hmem
  have : ∀ r ∈ l, ¬ (r.addr = a) := by
    simpa [containsAddr, List.any_eq_false] using h
  exact this r hr he

theorem lssStep_preserves_inv (e : LssEngine) (env : LssTickEnv)
    (h : EngineInv e) : EngineInv (lssStep e env).1 := by
  obtain ⟨⟨hnd, hids, hlen⟩, hnext, hcand⟩ := h
  cases hst : e.lssState <;> simp only [lssStep, hst]
  case INIT =>
    exact ⟨⟨hnd, hids, hlen⟩, hnext, Or.inl hnext⟩
  case SCANNING =>
    have hcand' : validNodeId e.candidate := by
      rcases hcand with h | h
      · exact h
      · rw [hst] at h; cases h
    cases env.scanResult
    case scanFinished =>
      cases hfc : findConf e.registry env.scanFound
      case none =>
        exact ⟨⟨hnd, hids, hlen⟩, hnext, Or.inl hcand'⟩
      case some r =>
        have hr : r ∈ e.registry := List.mem_of_find?_eq_some hfc
        refine ⟨⟨?_, ?_, ?_⟩, hnext, Or.inl (hids r hr)⟩
        · rw [touchSkip_map_addr]
          exact hnd
        · exact touchSkip_ids _ _ _ hids
        · rw [touchSkip_length]
          exact hlen
    case scanNoack => exact ⟨⟨hnd, hids, hlen⟩, hnext, Or.inl hcand'⟩
    case timeout => exact ⟨⟨hnd, hids, hlen⟩, hnext, Or.inl hcand'⟩
    case other => exact ⟨⟨hnd, hids, hlen⟩, hnext, Or.inl hcand'⟩
  case CONFIG_ID =>
    have hcand' : validNodeId e.candidate := by
      rcases hcand with h | h
      · exact h
      · rw [hst] at h; cases h
    cases env.cfgIdResult
    case ok => exact ⟨⟨hnd, hids, hlen⟩, hnext, Or.inl hcand'⟩
    case okIllegalArgument =>
      split_ifs <;>
        exact ⟨⟨hnd, hids, hlen⟩, hnext, Or.inl (lss_next_candidate_valid _)⟩
    case waitSlave => exact ⟨⟨hnd, hids, hlen⟩, hnext, Or.inl hcand'⟩
    case err => exact ⟨⟨hnd, hids, hlen⟩, hnext, Or.inr rfl⟩
  case CONFIG_STORE =>
    have hcand' : validNodeId e.candidate := by
      rcases hcand with h | h
      · exact h
      · rw [hst] at h; cases h
    cases env.cfgStoreResult
    case ok =>
      refine ⟨⟨?_, ?_, ?_⟩, lss_next_candidate_valid _,
        Or.inl (lss_next_candidate_valid _)⟩
      · split_ifs with hg
        · exact hnd
        · push_neg at hg
          have hna : containsAddr e.registry e.lastFound = false := by
            cases hca : containsAddr e.registry e.lastFound
            · rfl
            · exact absurd hca (by simpa using hg.1)
          rw [List.map_append]
          rw [List.nodup_append]
          exact ⟨hnd, by simp, by
            intro x hx hy
            simp at hy
            subst hy
            exact containsAddr_false_not_mem hna hx⟩
      · split_ifs with hg
        · exact hids
        · intro r hr
          rcases List.mem_append.mp hr with hr | hr
          · exact hids r hr
          · simp at hr
            subst hr
            exact hcand'
      · split_ifs with hg
        · exact hlen
        · push_neg at hg
          simp only [List.length_append, List.length_singleton]
          omega
    case okIllegalArgument => exact ⟨⟨hnd, hids, hlen⟩, hnext, Or.inr rfl⟩
    case waitSlave => exact ⟨⟨hnd, hids, hlen⟩, hnext, Or.inl hcand'⟩
    case err => exact ⟨⟨hnd, hids, hlen⟩, hnext, Or.inr rfl⟩
  case VERIFY_ID =>
    have hcand' : validNodeId e.candidate := by
      rcases hcand with h | h
      · exact h
      · rw [hst] at h; cases h
    cases env.inquireResult
    case ok =>
      split_ifs <;> exact ⟨⟨hnd, hids, hlen⟩, hnext, Or.inl hcand'⟩
    case okIllegalArgument => exact ⟨⟨hnd, hids, hlen⟩, hnext, Or.inl hcand'⟩
    case waitSlave => exact ⟨⟨hnd, hids, hlen⟩, hnext, Or.inl hcand'⟩
    case err => exact ⟨⟨hnd, hids, hlen⟩, hnext, Or.inl hcand'⟩
  case DESELECT =>
    split_ifs with hd
    · exact ⟨⟨hnd, hids, hlen⟩, lss_next_candidate_valid _,
        Or.inl (lss_next_candidate_valid _)⟩
    · exact ⟨⟨hnd, hids, hlen⟩, hnext, Or.inr rfl⟩
  case ACTIVATE =>
    have hcand' : validNodeId e.candidate := by
      rcases hcand with h | h
      · exact h
      · rw [hst] at h; cases h
    split_ifs <;> exact ⟨⟨hnd, hids, hlen⟩, hnext, Or.inl hcand'⟩
  case DONE =>
    have hcand' : validNodeId e.candidate := by
      rcases hcand with h | h
      · exact h
      · rw [hst] at h; cases h
    split_ifs <;> exact ⟨⟨hnd, hids, hlen⟩, hnext, Or.inl hcand'⟩

theorem lssRun_inv (evs : List LssTickEnv) : EngineInv (lssRun evs) := by
  unfold lssRun
  suffices h : ∀ e : LssEngine, EngineInv e →
      EngineInv (evs.foldl (fun e ev => (lssStep e ev).1) e) by
    refine h lssInitEngine ⟨⟨?_, ?_, ?_⟩, ?_, Or.inr rfl⟩
    · simp [lssInitEngine]
    · simp [lssInitEngine]
    · simp [lssInitEngine]
    · decide
  induction evs with
  | nil => intro e he; exact he
  | cons ev rest ih =>
    intro e he
    exact ih _ (lssStep_preserves_inv e ev he)

/-- C8: in every reachable state of the configured-node registry (after
any sequence of engine ticks from the empty registry), the LSS addresses
of the records are pairwise distinct, every assigned node id lies in
2..127 and differs from the master's own id, and the registry never
exceeds its 32-record capacity. -/
theorem c8_registry_invariant :
    ∀ evs : List LssTickEnv,
      ((lssRun evs).registry.map ConfNode.addr).Nodup ∧
      (∀ r ∈ (lssRun evs).registry,
        2 ≤ r.assignedNodeId ∧ r.assignedNodeId ≤ 127 ∧
          r.assignedNodeId ≠ MASTER_NODE_ID) ∧
      (lssRun evs).registry.length ≤ 32 := by
  intro evs
  obtain ⟨⟨hnd, hids, hlen⟩, -, -⟩ := lssRun_inv evs
  refine ⟨hnd, ?_, hlen⟩
  intro r hr
  obtain ⟨h2, h127⟩ := hids r hr
  refine ⟨h2, h127, ?_⟩
  unfold MASTER_NODE_ID
  omega

theorem c8_witness :
    2 ≤ c8WitRec.assignedNodeId ∧ c8WitRec.assignedNodeId ≤ 127 ∧
      c8WitRec.assignedNodeId ≠ MASTER_NODE_ID :=
  (c8_registry_invariant c8WitEnvs).2.1 c8WitRec (by decide)

/-- No tick ever moves the engine into LSS_VERIFY_ID (it can only remain
there), and a tick can only end in LSS_DESELECT when it started in
LSS_VERIFY_ID or LSS_DESELECT. -/
theorem lssStep_next_state (e : LssEngine) (env : LssTickEnv) :
    ((lssStep e env).1.lssState = .VERIFY_ID → e.lssState = .VERIFY_ID) ∧
    ((lssStep e env).1.lssState = .DESELECT →
      e.lssState = .VERIFY_ID ∨ e.lssState = .DESELECT) := by
  cases hst : e.lssState <;> simp only [lssStep, hst]
  case INIT => simp
  case SCANNING =>
    cases env.scanResult
    case scanFinished =>
      cases findConf e.registry env.scanFound <;> simp
    case scanNoack => simp
    case timeout => simp
    case other => simp [hst]
  case CONFIG_ID =>
    cases env.cfgIdResult
    case ok => simp
    case okIllegalArgument => split_ifs <;> simp [hst]
    case waitSlave => simp [hst]
    case err => simp
  case CONFIG_STORE =>
    cases env.cfgStoreResult
    case ok => simp
    case okIllegalArgument => simp
    case waitSlave => simp [hst]
    case err => simp
  case VERIFY_ID =>
    cases env.inquireResult
    case ok => split_ifs <;> simp
    case okIllegalArgument => simp
    case waitSlave => simp [hst]
    case err => simp
  case DESELECT =>
    split_ifs <;> simp
  case ACTIVATE =>
    split_ifs <;> simp [hst]
  case DONE =>
    split_ifs <;> simp [hst]

/-- C9: LSS_VERIFY_ID and LSS_DESELECT are unreachable from LSS_INIT: no
tick assigns lssState = LSS_VERIFY_ID, a tick ends in LSS_DESELECT only
when it started in LSS_VERIFY_ID or LSS_DESELECT, hence no run from the
initial state reaches either state; and the CONFIG_STORE success path
issues the deselect inline and moves directly to LSS_ACTIVATE. -/
theorem c9_verify_deselect_unreachable :
    (∀ (e : LssEngine) (env : LssTickEnv),
      (lssStep e env).1.lssState = .VERIFY_ID → e.lssState = .VERIFY_ID)
    ∧ (∀ (e : LssEngine) (env : LssTickEnv),
      (lssStep e env).1.lssState = .DESELECT →
        e.lssState = .VERIFY_ID ∨ e.lssState = .DESELECT)
    ∧ (∀ evs : List LssTickEnv,
        ¬ (lssRun evs).lssState = .VERIFY_ID ∧
        ¬ (lssRun evs).lssState = .DESELECT)
    ∧ (∀ (e : LssEngine) (env : LssTickEnv),
        e.lssState = .CONFIG_STORE → env.cfgStoreResult = .ok →
        (lssStep e env).1.lssState = .ACTIVATE ∧
          (lssStep e env).2 = [LssAction.deselect]) := by
  refine ⟨fun e env => (lssStep_next_state e env).1,
    fun e env => (lssStep_next_state e env).2, ?_, ?_⟩
  · intro evs
    unfold lssRun
    suffices h : ∀ e : LssEngine,
        ¬ e.lssState = .VERIFY_ID ∧ ¬ e.lssState = .DESELECT →
        ¬ (evs.foldl (fun e ev => (lssStep e ev).1) e).lssState = .VERIFY_ID ∧
        ¬ (evs.foldl (fun e ev => (lssStep e ev).1) e).lssState = .DESELECT by
      exact h lssInitEngine ⟨by decide, by decide⟩
    induction evs with
    | nil => intro e he; exact he
    | cons ev rest ih =>
      intro e he
      refine ih _ ⟨?_, ?_⟩
      · intro hv
        exact he.1 ((lssStep_next_state e ev).1 hv)
      · intro hd
        rcases (lssStep_next_state e ev).2 hd with h | h
        · exact he.1 h
        · exact he.2 h
  · intro e env h1 h2
    simp [lssStep, h1, h2]

theorem c9_witness :
    (lssStep c9WitEngine c9WitEnv).1.lssState = .ACTIVATE ∧
      (lssStep c9WitEngine c9WitEnv).2 = [LssAction.deselect] :=
  c9_verify_deselect_unreachable.2.2.2 c9WitEngine c9WitEnv rfl rfl

set_option maxRecDepth 40000 in
/-- C6: the node-id allocator: next_id_to_assign starts at 0x10 = 16; a
successful store advances it to the stored candidate's successor, which
adds 1 below 127, wraps from 127 to 2 and never yields the master's own
id; the CONFIG_ID rotation on OK_ILLEGAL_ARGUMENT gives up to DONE exactly
when the attempt counter exceeds 126; and from any valid start the
rotation visits at most 126 distinct ids. -/
theorem c6_id_allocator :
    lssInitEngine.nextId = ID_INICIO_ASIGNACION ∧ ID_INICIO_ASIGNACION = 16
    ∧ (∀ c, 2 ≤ c → c < 127 → lss_next_candidate c = c + 1)
    ∧ lss_next_candidate 127 = 2
    ∧ (∀ c, ¬ lss_next_candidate c = MASTER_NODE_ID)
    ∧ (∀ (e : LssEngine) (env : LssTickEnv),
        e.lssState = .CONFIG_STORE → env.cfgStoreResult = .ok →
        (lssStep e env).1.nextId = lss_next_candidate e.candidate)
    ∧ (∀ (e : LssEngine) (env : LssTickEnv),
        e.lssState = .CONFIG_ID → env.cfgIdResult = .okIllegalArgument →
        ((lssStep e env).1.lssState = .DONE ↔ e.attemptRounds + 1 > 126))
    ∧ (∀ c, validNodeId c → ∀ k,
        (((List.range k).map (fun i => lss_next_candidate^[i] c)).toFinset).card
          ≤ 126) := by
  refine ⟨rfl, rfl, ?_, by decide, ?_, ?_, ?_, ?_⟩
  · intro c h1 h2
    unfold lss_next_candidate lss_skip_master MASTER_NODE_ID
    rw [if_pos h2, if_neg (by omega)]
  · intro c
    have h := lss_next_candidate_valid c
    unfold validNodeId at h
    unfold MASTER_NODE_ID
    omega
  · intro e env h1 h2
    simp [lssStep, h1, h2]
  · intro e env h1 h2
    simp only [lssStep, h1, h2]
    split_ifs with hr
    · simpa using hr
    · simp [h1]
      omega
  · intro c hc k
    have hsub : ((List.range k).map (fun i => lss_next_candidate^[i] c)).toFinset
        ⊆ validIdSet := by
      intro x hx
      simp only [List.mem_toFinset, List.mem_map] at hx
      obtain ⟨i, -, rfl⟩ := hx
      have hv : validNodeId (lss_next_candidate^[i] c) := by
        induction i with
        | zero => simpa using hc
        | succ n ihn =>
          rw [Function.iterate_succ_apply']
          exact lss_next_candidate_valid _
      unfold validIdSet
      unfold validNodeId at hv
      simp only [Finset.mem_filter, Finset.mem_range, decide_eq_true_eq]
      exact ⟨by omega, hv.1⟩
    calc (((List.range k).map (fun i => lss_next_candidate^[i] c)).toFinset).card
        ≤ validIdSet.card := Finset.card_le_card hsub
      _ = 126 := by decide

theorem c6_witness :
    lss_next_candidate 16 = 17 ∧
    ¬ lss_next_candidate 0 = MASTER_NODE_ID ∧
    (lssStep c9WitEngine c9WitEnv).1.nextId =
      lss_next_candidate c9WitEngine.candidate ∧
    ((lssStep c6WitEngineIll c6WitEnvIll).1.lssState = .DONE ↔
      c6WitEngineIll.attemptRounds + 1 > 126) ∧
    (((List.range 200).map (fun i => lss_next_candidate^[i] 16)).toFinset).card
      ≤ 126 :=
  ⟨c6_id_allocator.2.2.1 16 (by decide) (by decide),
   c6_id_allocator.2.2.2.2.1 0,
   c6_id_allocator.2.2.2.2.2.1 c9WitEngine c9WitEnv rfl rfl,
   c6_id_allocator.2.2.2.2.2.2.1 c6WitEngineIll c6WitEnvIll rfl rfl,
   c6_id_allocator.2.2.2.2.2.2.2 16 (by decide) 200⟩

/-! ### Fastscan stall watchdog: claim C7 -/

theorem scanLoopF_no_noprogress (env : ScanEnv) (t0 : Nat) :
    ∀ (fuel : Nat) (st : ScanSt), st.lastStep ≤ st.steps →
      (scanLoopF env t0 fuel st).isNoProgress = false := by
  intro fuel
  induction fuel with
  | zero => intro st h; rfl
  | succ n ih =>
    intro st h
    simp only [scanLoopF]
    by_cases h1 : (st.steps + 1) &&& 0xFF = 0
    · rw [if_pos h1]
      by_cases h2 : env.timeAt (st.steps + 1) - st.lastCheckUs > SCAN_PROGRESS_WINDOW_US
      · rw [if_pos h2]
        have hne : ¬ (st.steps + 1 = st.lastStep ∧ env.retAt st.steps = .waitSlave) := by
          rintro ⟨he, -⟩
          omega
        rw [if_neg hne]
        by_cases h3 : env.timeAt (st.steps + 1) > t0 + SCAN_SAFETY_DEADLINE_US
        · rw [if_pos h3]; rfl
        · rw [if_neg h3]
          by_cases h4 : env.retAt st.steps = ScanRet.waitSlave
          · rw [if_pos h4]
            exact ih _ (by simp)
          · rw [if_neg h4]; rfl
      · rw [if_neg h2]
        by_cases h3 : env.timeAt (st.steps + 1) > t0 + SCAN_SAFETY_DEADLINE_US
        · rw [if_pos h3]; rfl
        · rw [if_neg h3]
          by_cases h4 : env.retAt st.steps = ScanRet.waitSlave
          · rw [if_pos h4]
            exact ih _ (by simp; omega)
          · rw [if_neg h4]; rfl
    · rw [if_neg h1]
      by_cases h4 : env.retAt st.steps = ScanRet.waitSlave
      · rw [if_pos h4]
        exact ih _ (by simp; omega)
      · rw [if_neg h4]; rfl

set_option maxRecDepth 200000 in
/-- C7: the 500 ms stall detector of the LSS_SCANNING loop can never fire:
the loop counter steps increments on every iteration while the comparison
steps == last_step_at_check is only evaluated at multiples of 256, so the
equality (and hence the claimed 500 ms TIMEOUT transition) is unreachable
in every execution; on a permanently stalled bus (IdentifyFastscan always
WAIT_SLAVE, 2 ms per step) the loop is still running after 300 steps,
i.e. 600 ms, past the claimed 500 ms window. -/
theorem c7_stall_watchdog_dead :
    (∀ (env : ScanEnv) (t0 fuel : Nat),
      (scanLoopF env t0 fuel
        { steps := 0, lastStep := 0, lastCheckUs := t0 }).isNoProgress = false)
    ∧ scanLoopF stallScanEnv 0 300 { steps := 0, lastStep := 0, lastCheckUs := 0 } =
        .fuelOut { steps := 300, lastStep := 256, lastCheckUs := 512000 } := by
  constructor
  · intro env t0 fuel
    exact scanLoopF_no_noprogress env t0 fuel _ le_rfl
  · decide

end MasterSlaveFw
